import Mathlib

/-!
# gin-coraza: a shallow embedding of `gincoraza.go`

The Go package `waf` wires the Coraza rule engine into a gin middleware chain.
This development embeds its path-policy store, its client-address parsing, the
per-request middleware function and the response-writer decorator, and states
the properties of the design document over that embedding.

Conventions.
* A Go `string` (and a `[]byte`) is a byte sequence; it is modelled by a Lean
  `String` whose characters stand for the bytes.
* Go `int` is modelled by `Int`; the one place where the source accumulates
  into an `int` (`size += n`) wraps explicitly at 64 bits.
* The rule engine is external.  It is modelled as an arbitrary deterministic
  oracle: every answer is a function of the history of calls (with their
  answers) made so far on the transaction, so every theorem quantified over
  `Engine` holds for every engine behaviour.
-/

set_option autoImplicit false

namespace waf

/-! ## Path policy store (`Waf`, `PreRegisertPath`, `RegisertPath`) -/

/-- Per-path configuration, `type Waf struct`. -/
structure Waf where
  IsEnable : Bool
  CheckReqHeader : Bool
  CheckReqBody : Bool
  CheckRespHeader : Bool
  CheckRespBody : Bool
  IsRegister : Bool
deriving DecidableEq, Repr

/-- The `const` block of the source: every default is `true`. -/
def IsEnable : Bool := true
def CheckReqHeader : Bool := true
def CheckReqBody : Bool := true
def CheckRespHeader : Bool := true
def CheckRespBody : Bool := true
def IsRegister : Bool := true

/-- The Go `map[string]Waf` held in `GinCoraza.Waf`: a finite partial map,
    read by key and updated by key. -/
abbrev PathMap := String → Option Waf

/-- The map made by `Init`: `map[string]Waf{}`. -/
def PathMap.empty : PathMap := fun _ => none

/-- Go map assignment `m[k] = v`. -/
def PathMap.set (m : PathMap) (k : String) (v : Waf) : PathMap :=
  fun q => if q = k then some v else m q

/-- Go map read `m[k]`: the zero value of `Waf` when the key is absent. -/
def PathMap.index (m : PathMap) (k : String) : Waf :=
  match m k with
  | some v => v
  | none => ⟨false, false, false, false, false, false⟩

/-- The guard shared by both registration functions:
    `if val, exists := waf.Waf[fullPath]; exists { if val.IsRegister { return } }`. -/
def alreadyRegistered (m : PathMap) (fullPath : String) : Bool :=
  match m fullPath with
  | some val => val.IsRegister
  | none => false

/-- Embedding of `func (waf *GinCoraza) PreRegisertPath(fullPath string)`. -/
def PreRegisertPath (m : PathMap) (fullPath : String) : PathMap :=
  if alreadyRegistered m fullPath then m
  else m.set fullPath
    { IsEnable := IsEnable, CheckReqHeader := CheckReqHeader, CheckReqBody := CheckReqBody,
      CheckRespHeader := CheckReqHeader, CheckRespBody := CheckReqBody,
      IsRegister := !IsRegister }

/-- Embedding of `func (waf *GinCoraza) RegisertPath(fullPath string, isEnable,
    checkReqHeader, checkReqBody, checkRespHeader, checkRespBody bool)`.
    As in the source, the last two parameters are not used by the body. -/
def RegisertPath (m : PathMap) (fullPath : String)
    (isEnable checkReqHeader checkReqBody checkRespHeader checkRespBody : Bool) : PathMap :=
  let _unusedRespHeader := checkRespHeader
  let _unusedRespBody := checkRespBody
  if alreadyRegistered m fullPath then m
  else m.set fullPath
    { IsEnable := isEnable, CheckReqHeader := checkReqHeader, CheckReqBody := checkReqBody,
      CheckRespHeader := checkReqHeader, CheckRespBody := checkReqBody,
      IsRegister := IsRegister }

/-- One registration call on a path: the automatic one made by the middleware on
    every request, or the explicit one with its five settings. -/
inductive RegCall where
  | auto
  | explicit (isEnable checkReqHeader checkReqBody checkRespHeader checkRespBody : Bool)
deriving DecidableEq, Repr

/-- Is the call the automatic registration? -/
def RegCall.isAuto : RegCall → Bool
  | .auto => true
  | .explicit _ _ _ _ _ => false

/-- Run one registration call on the store. -/
def RegCall.run (c : RegCall) (m : PathMap) (fullPath : String) : PathMap :=
  match c with
  | .auto => PreRegisertPath m fullPath
  | .explicit a b c d e => RegisertPath m fullPath a b c d e

/-! ## Client address parsing (lines 88-97 of the middleware) -/

/-- The loop of Go `strings.LastIndexByte`: `for i := len(s)-1; i >= 0; i--`,
    written on the number of positions still to be visited. -/
def lastIndexLoop (s : List Char) (c : Char) : Nat → Int
  | 0 => -1
  | i + 1 => if s[i]? = some c then (i : Int) else lastIndexLoop s c i

/-- Go `strings.LastIndexByte(s, c)`: index of the last `c` in `s`, or `-1`. -/
def LastIndexByte (s : String) (c : Char) : Int :=
  lastIndexLoop s.data c s.data.length

/-- The digit loop of Go `strconv.ParseUint(s, 10, 64)`, on the bytes still to
    be read and the value accumulated so far.  `none` is the syntax error of a
    byte that is not a decimal digit; otherwise the value and whether the
    range error was raised, which ends the loop at once with the largest
    `uint64`. -/
def parseUintLoop : List Char → Nat → Option (Nat × Bool)
  | [], n => some (n, false)
  | ch :: rest, n =>
    if '0' ≤ ch ∧ ch ≤ '9' then
      if (2 ^ 64 - 1) / 10 + 1 ≤ n then some (2 ^ 64 - 1, true)
      else if 2 ^ 64 - 1 < n * 10 + (ch.toNat - '0'.toNat) then some (2 ^ 64 - 1, true)
      else parseUintLoop rest (n * 10 + (ch.toNat - '0'.toNat))
    else none

/-- Go `strconv.Atoi` on a 64-bit platform: the value and whether an error is
    returned with it.  An optional sign, then at least one decimal digit; a
    syntax error gives `0`, a value out of range gives the nearest bound of
    `int`.  (The fast path of `Atoi` for short strings computes the same value
    as `ParseInt(s, 10, 0)`, which is what is written here.) -/
def Atoi (s : String) : Int × Bool :=
  let neg : Bool := s.data.head? = some '-'
  let body : List Char :=
    match s.data with
    | '-' :: r => r
    | '+' :: r => r
    | l => l
  if body.isEmpty then (0, true)
  else
    match parseUintLoop body 0 with
    | none => (0, true)
    | some (un, _) =>
      if !neg && decide (2 ^ 63 ≤ un) then ((2 : Int) ^ 63 - 1, true)
      else if neg && decide (2 ^ 63 < un) then (-(2 : Int) ^ 63, true)
      else (if neg then -(un : Int) else (un : Int), false)

/-- Go slice `s[:i]`. -/
def sliceTo (s : String) (i : Nat) : String := ⟨s.data.take i⟩

/-- Go slice `s[i:]`. -/
def sliceFrom (s : String) (i : Nat) : String := ⟨s.data.drop i⟩

/-- The `client`, `cport` pair computed from `req.RemoteAddr` before
    `tx.ProcessConnection`: both variables start at their zero value and are
    assigned only when a colon is found. -/
def clientAddr (remoteAddr : String) : String × Int :=
  let idx := LastIndexByte remoteAddr ':'
  if idx ≠ -1 then
    (sliceTo remoteAddr idx.toNat, (Atoi (sliceFrom remoteAddr (idx.toNat + 1))).1)
  else ("", 0)

/-! ## The rule engine, seen from the middleware -/

/-- The verdict type of the engine, `types.Interruption`. -/
structure Interruption where
  RuleID : Int
  Action : String
  Status : Int
  Data : String
deriving DecidableEq, Repr

/-- One call made on the transaction `tx`, recorded with its arguments and with
    what the engine answered. -/
inductive TxEvent where
  | IsRuleEngineOff (r : Bool)
  | ProcessConnection (client : String) (cport : Int) (server : String) (sport : Int)
  | ProcessURI (uri method proto : String)
  | AddRequestHeader (k v : String)
  | SetServerName (host : String)
  | ProcessRequestHeaders (r : Option Interruption)
  | IsRequestBodyAccessible (r : Bool)
  | ReadRequestBodyFrom (r : Option Interruption) (n : Int) (err : Option String)
  | RequestBodyReader (reader : String) (err : Option String)
  | ProcessRequestBody (r : Option Interruption) (err : Option String)
  | Interruption (r : Option Interruption)
  | AddResponseHeader (k v : String)
  | ProcessResponseHeaders (status : Int) (proto : String) (r : Option Interruption)
  | WriteResponseBody (b : String) (r : Option Interruption) (n : Int) (err : Option String)
  | IsInterrupted (r : Bool)
  | IsResponseBodyAccessible (r : Bool)
  | IsResponseBodyProcessable (r : Bool)
  | ProcessResponseBody (r : Option Interruption) (err : Option String)
  | ResponseBodyReader (reader : String) (err : Option String)
  | ProcessLogging
  | Close
deriving DecidableEq, Repr

/-- The transaction as the middleware sees it: the calls made so far. -/
abbrev Tx := List TxEvent

/-- The engine side of a transaction (`types.Transaction`): each answer is a
    function of the calls made so far and of the arguments.  An error value is
    `some message`, Go `nil` is `none`; a reader is given by its content. -/
structure Engine where
  IsRuleEngineOff : Tx → Bool
  ProcessRequestHeaders : Tx → Option waf.Interruption
  IsRequestBodyAccessible : Tx → Bool
  ReadRequestBodyFrom : Tx → String → Option waf.Interruption × Int × Option String
  RequestBodyReader : Tx → String × Option String
  ProcessRequestBody : Tx → Option waf.Interruption × Option String
  Interruption : Tx → Option waf.Interruption
  ProcessResponseHeaders : Tx → Int → String → Option waf.Interruption
  WriteResponseBody : Tx → String → Option waf.Interruption × Int × Option String
  IsInterrupted : Tx → Bool
  IsResponseBodyAccessible : Tx → Bool
  IsResponseBodyProcessable : Tx → Bool
  ProcessResponseBody : Tx → Option waf.Interruption × Option String
  ResponseBodyReader : Tx → String × Option String

/-! ## The framework writer (`gin.ResponseWriter`) -/

/-- Go `int` addition on a 64-bit platform. -/
def wrapInt (x : Int) : Int := (x + 2 ^ 63) % 2 ^ 64 - 2 ^ 63

/-- The writer gin hands to the middleware: the status that will be sent, the
    byte count (`-1` until the header is written), the header map in the order
    a `range` visits it, and what has reached the client. -/
structure GinWriter where
  status : Int
  size : Int
  header : List (String × List String)
  sentStatus : Option Int
  sentBody : String
deriving DecidableEq, Repr

/-- A writer on which nothing happened yet (status `200`, nothing written). -/
def GinWriter.fresh : GinWriter := ⟨200, -1, [], none, ""⟩

/-- Gin writer method `Written()`. -/
def GinWriter.Written (w : GinWriter) : Bool := w.size ≠ -1

/-- Gin writer method `Status()`. -/
def GinWriter.Status (w : GinWriter) : Int := w.status

/-- Gin writer method `WriteHeader(code)`: the status changes only before the
    header is written. -/
def GinWriter.WriteHeader (w : GinWriter) (code : Int) : GinWriter :=
  if 0 < code ∧ w.status ≠ code then
    (if w.Written then w else { w with status := code })
  else w

/-- Gin writer method `WriteHeaderNow()`: commits status and headers once. -/
def GinWriter.WriteHeaderNow (w : GinWriter) : GinWriter :=
  if w.Written then w else { w with size := 0, sentStatus := some w.status }

/-- Gin writer method `Write` / `WriteString`: commits the header, sends the
    bytes; the count returned is the length of the data. -/
def GinWriter.Write (w : GinWriter) (data : String) : Int × GinWriter :=
  let w1 := w.WriteHeaderNow
  let n : Int := data.length
  (n, { w1 with size := wrapInt (w1.size + n), sentBody := w1.sentBody ++ data })

/-- Go `textproto` test for a byte allowed in a header name: a letter, a digit
    or one of the token punctuation bytes (among them the apostrophe, byte 39,
    and the grave accent, byte 96). -/
def validHeaderFieldByte (c : Char) : Bool :=
  c.isAlphanum ||
    [Char.ofNat 33, Char.ofNat 35, Char.ofNat 36, Char.ofNat 37, Char.ofNat 38, Char.ofNat 39,
     Char.ofNat 42, Char.ofNat 43, Char.ofNat 45, Char.ofNat 46, Char.ofNat 94, Char.ofNat 95,
     Char.ofNat 96, Char.ofNat 124, Char.ofNat 126].contains c

/-- The rewriting loop of Go `textproto.CanonicalMIMEHeaderKey`: upper case for
    the first letter and for a letter after a dash, lower case for the others. -/
def canonicalLoop : List Char → Bool → List Char
  | [], _ => []
  | c :: rest, upper =>
    let c1 : Char := if upper then c.toUpper else c.toLower
    c1 :: canonicalLoop rest (c1 = '-')

/-- Go `textproto.CanonicalMIMEHeaderKey`: a name with a byte that is not allowed
    in a header name (a space included) is returned as it is. -/
def CanonicalMIMEHeaderKey (s : String) : String :=
  if s.data.all validHeaderFieldByte then ⟨canonicalLoop s.data true⟩ else s

/-- The effect of `Header().Set(k, v)` on the header map: the entry of the
    canonical form of `k` becomes the single value `v`. -/
def GinWriter.SetHeader (w : GinWriter) (k v : String) : GinWriter :=
  { w with header :=
      (w.header.filter (fun p => p.1 ≠ CanonicalMIMEHeaderKey k)) ++
        [(CanonicalMIMEHeaderKey k, [v])] }

/-! ## The response-writer decorator (`responseWriter`) -/

/-- The fields of `type responseWriter struct` that live in the struct itself.
    The embedded `gin.ResponseWriter` and the transaction `tx` are references;
    they are kept in `Heap`, shared by every copy of the struct. -/
structure responseWriter where
  protocol : String
  headersProcessed : Bool
  size : Int
  checkRespHeaders : Bool
  checkRespBody : Bool
deriving DecidableEq, Repr

/-- What the references held by a `responseWriter` point to. -/
structure Heap where
  tx : Tx
  ResponseWriter : GinWriter
deriving DecidableEq, Repr

/-- The calls `tx.AddResponseHeader(k, v)` of the two nested `range` loops. -/
def addResponseHeaders (header : List (String × List String)) : Tx :=
  header.flatMap (fun kv => kv.2.map (fun v => TxEvent.AddResponseHeader kv.1 v))

/-- Embedding of `func (w *responseWriter) processResponseHeaders()`.
    The `||` of the guard is short-circuit: `tx.Interruption()` is asked in the
    guard only when `headersProcessed` is false. -/
def responseWriter.processResponseHeaders (E : Engine) (w : responseWriter) (h : Heap) :
    Option Interruption × responseWriter × Heap :=
  if w.headersProcessed then
    let r := E.Interruption h.tx
    (r, w, { h with tx := h.tx ++ [TxEvent.Interruption r] })
  else
    let r0 := E.Interruption h.tx
    let tx1 := h.tx ++ [TxEvent.Interruption r0]
    if r0.isSome then
      let r := E.Interruption tx1
      (r, w, { h with tx := tx1 ++ [TxEvent.Interruption r] })
    else
      let w1 := { w with headersProcessed := true }
      let tx2 := tx1 ++ addResponseHeaders h.ResponseWriter.header
      let st := h.ResponseWriter.Status
      let r := E.ProcessResponseHeaders tx2 st w.protocol
      (r, w1, { h with tx := tx2 ++ [TxEvent.ProcessResponseHeaders st w.protocol r] })

/-- Embedding of `func (w *responseWriter) WriteString(s string)`: pointer
    receiver, so the updates of `headersProcessed` and `size` are kept. -/
def responseWriter.WriteString (E : Engine) (w : responseWriter) (h : Heap) (s : String) :
    (Int × Option String) × responseWriter × Heap :=
  let hp : Option Interruption × responseWriter × Heap :=
    if w.checkRespHeaders then w.processResponseHeaders E h else (none, w, h)
  let w1 := hp.2.1
  let h1 := hp.2.2
  if hp.1.isSome then ((0, none), w1, h1)
  else
    let h2 : Heap := { h1 with ResponseWriter := h1.ResponseWriter.WriteHeaderNow }
    if w1.checkRespBody then
      let r := E.WriteResponseBody h2.tx s
      let h3 : Heap := { h2 with tx := h2.tx ++ [TxEvent.WriteResponseBody s r.1 r.2.1 r.2.2] }
      if r.1.isSome then ((0, r.2.2), w1, h3)
      else ((r.2.1, none), { w1 with size := wrapInt (w1.size + r.2.1) }, h3)
    else
      let r := h2.ResponseWriter.Write s
      ((r.1, none), { w1 with size := wrapInt (w1.size + r.1) }, { h2 with ResponseWriter := r.2 })

/-- Embedding of `func (w responseWriter) Write(b []byte)`: value receiver.
    The body works on a copy of the struct, so whatever it stores in
    `headersProcessed` and `size` is dropped on return; the effects on the
    transaction and on the wrapped writer, reached through references, stay. -/
def responseWriter.Write (E : Engine) (w : responseWriter) (h : Heap) (b : String) :
    (Int × Option String) × responseWriter × Heap :=
  let copy := w
  let hp : Option Interruption × responseWriter × Heap :=
    if copy.checkRespHeaders then copy.processResponseHeaders E h else (none, copy, h)
  let copy1 := hp.2.1
  let h1 := hp.2.2
  if hp.1.isSome then ((0, none), w, h1)
  else
    let h2 : Heap := { h1 with ResponseWriter := h1.ResponseWriter.WriteHeaderNow }
    if copy1.checkRespBody then
      let r := E.WriteResponseBody h2.tx b
      let h3 : Heap := { h2 with tx := h2.tx ++ [TxEvent.WriteResponseBody b r.1 r.2.1 r.2.2] }
      if r.1.isSome then ((0, r.2.2), w, h3)
      else
        let _copy2 : responseWriter := { copy1 with size := wrapInt (copy1.size + r.2.1) }
        ((r.2.1, none), w, h3)
    else
      let r := h2.ResponseWriter.Write b
      let _copy2 : responseWriter := { copy1 with size := wrapInt (copy1.size + r.1) }
      ((r.1, none), w, { h2 with ResponseWriter := r.2 })

/-- Embedding of `func (w *responseWriter) Size() int`. -/
def responseWriter.Size (w : responseWriter) : Int := w.size

/-! ## The downstream handler -/

/-- What a downstream handler does to the writer it is given. -/
inductive HandlerOp where
  | Write (b : String)
  | WriteString (s : String)
  | WriteHeader (code : Int)
  | SetHeader (k v : String)
deriving DecidableEq, Repr

/-- One handler operation on the decorator; the number returned is the byte
    count the write call reports (`0` for the operations that are not writes). -/
def HandlerOp.onInterceptor (E : Engine) (w : responseWriter) (h : Heap) :
    HandlerOp → Int × responseWriter × Heap
  | .Write b => let r := w.Write E h b; (r.1.1, r.2)
  | .WriteString s => let r := w.WriteString E h s; (r.1.1, r.2)
  | .WriteHeader code => (0, w, { h with ResponseWriter := h.ResponseWriter.WriteHeader code })
  | .SetHeader k v => (0, w, { h with ResponseWriter := h.ResponseWriter.SetHeader k v })

/-- A sequence of handler operations on the decorator, with the byte counts the
    calls reported, in order. -/
def runOnInterceptor (E : Engine) : List HandlerOp → responseWriter → Heap →
    List Int × responseWriter × Heap
  | [], w, h => ([], w, h)
  | op :: rest, w, h =>
    let r := op.onInterceptor E w h
    let rs := runOnInterceptor E rest r.2.1 r.2.2
    (r.1 :: rs.1, rs.2)

/-- One handler operation on the bare framework writer. -/
def HandlerOp.onWriter (w : GinWriter) : HandlerOp → GinWriter
  | .Write b => (w.Write b).2
  | .WriteString s => (w.Write s).2
  | .WriteHeader code => w.WriteHeader code
  | .SetHeader k v => w.SetHeader k v

/-- A sequence of handler operations on the bare framework writer. -/
def runOnWriter (ops : List HandlerOp) (w : GinWriter) : GinWriter :=
  ops.foldl HandlerOp.onWriter w

/-! ## The middleware (`GinCoraza`) -/

/-- The fields of `*http.Request` (through `c.Request`) the middleware reads.
    `Body` is `none` for a `nil` body and for `http.NoBody`. -/
structure Request where
  Path : String
  URL : String
  Method : String
  Proto : String
  Host : String
  RemoteAddr : String
  TransferEncoding : Option (List String)
  Body : Option String
deriving DecidableEq, Repr

/-- The state one run of the middleware works on: the transaction, the writer
    gin supplied (`oldwriter`), the decorator once installed as `c.Writer`, the
    request body the handler will read, how often `c.Next()` ran, the statuses
    passed to `c.AbortWithStatus`, and whether the run ended in a Go panic. -/
structure Context where
  tx : Tx
  Writer : GinWriter
  interceptor : Option responseWriter
  Body : Option String
  nextCalls : Nat
  aborts : List Int
  panicked : Bool
deriving DecidableEq, Repr

/-- Record one call on the transaction. -/
def Context.call (c : Context) (e : TxEvent) : Context :=
  { c with tx := c.tx ++ [e] }

/-- Gin `c.AbortWithStatus(code)`: `WriteHeader(code)` and `WriteHeaderNow()` on
    the framework writer, and the chain is aborted. -/
def Context.AbortWithStatus (c : Context) (code : Int) : Context :=
  { c with Writer := (c.Writer.WriteHeader code).WriteHeaderNow, aborts := c.aborts ++ [code] }

/-- Go `io.Copy(oldwriter, reader)`: nothing is written for an empty reader. -/
def ioCopy (w : GinWriter) (content : String) : GinWriter :=
  if content = "" then w else (w.Write content).2

/-- Lines 187-193: fetch the response-body reader of the engine and copy it to
    the original writer. -/
def flushResponseBody (E : Engine) (c : Context) : Context :=
  let r := E.ResponseBodyReader c.tx
  let c1 := c.call (TxEvent.ResponseBodyReader r.1 r.2)
  if r.2.isSome then c1.AbortWithStatus 403
  else { c1 with Writer := ioCopy c1.Writer r.1 }

/-- Lines 172-194: what the middleware does once `c.Next()` has returned. -/
def afterHandler (E : Engine) (cfg : Waf) (c : Context) : Context :=
  let i := E.IsInterrupted c.tx
  let c1 := c.call (TxEvent.IsInterrupted i)
  if i then c1.AbortWithStatus 403
  else if cfg.CheckRespBody then
    let a := E.IsResponseBodyAccessible c1.tx
    let c2 := c1.call (TxEvent.IsResponseBodyAccessible a)
    if a then
      let p := E.IsResponseBodyProcessable c2.tx
      let c3 := c2.call (TxEvent.IsResponseBodyProcessable p)
      if p then
        let r := E.ProcessResponseBody c3.tx
        let c4 := c3.call (TxEvent.ProcessResponseBody r.1 r.2)
        if r.2.isSome then c4.AbortWithStatus 500
        else if r.1.isSome then c4.AbortWithStatus 403
        else flushResponseBody E c4
      else flushResponseBody E c3
    else flushResponseBody E c2
  else c1

/-- The decorator as the middleware constructs it (lines 165-170): the fields
    not listed in the composite literal have their zero value. -/
def newResponseWriter (checkRespHeaders checkRespBody : Bool) : responseWriter :=
  { protocol := "", headersProcessed := false, size := 0,
    checkRespHeaders := checkRespHeaders, checkRespBody := checkRespBody }

/-- Lines 164-171 and on: install the decorator as `c.Writer`, run the
    downstream handler on it, then `afterHandler`. -/
def invokeHandler (E : Engine) (cfg : Waf) (handler : List HandlerOp) (c : Context) : Context :=
  let w : responseWriter := newResponseWriter cfg.CheckRespHeader cfg.CheckRespBody
  let r := runOnInterceptor E handler w { tx := c.tx, ResponseWriter := c.Writer }
  afterHandler E cfg
    { c with tx := r.2.2.tx, Writer := r.2.2.ResponseWriter, interceptor := some r.2.1,
             nextCalls := c.nextCalls + 1 }

/-- Lines 150-159 and on: `tx.ProcessRequestBody()`. -/
def processRequestBody (E : Engine) (cfg : Waf) (handler : List HandlerOp) (c : Context) :
    Context :=
  let r := E.ProcessRequestBody c.tx
  let c1 := c.call (TxEvent.ProcessRequestBody r.1 r.2)
  if r.2.isSome then c1.AbortWithStatus 403
  else if r.1.isSome then c1.AbortWithStatus 403
  else invokeHandler E cfg handler c1

/-- Lines 117-162 and on: the request-body phase.  The engine consumes the
    first `n` bytes of the body, `n` being the count `ReadRequestBodyFrom`
    returns; the body handed on is the engine reader followed by the rest. -/
def requestBodyPhase (E : Engine) (cfg : Waf) (handler : List HandlerOp) (c : Context) :
    Context :=
  if cfg.CheckReqBody then
    let a := E.IsRequestBodyAccessible c.tx
    let c1 := c.call (TxEvent.IsRequestBodyAccessible a)
    if a then
      match c1.Body with
      | some body =>
        let r := E.ReadRequestBodyFrom c1.tx body
        let c2 := c1.call (TxEvent.ReadRequestBodyFrom r.1 r.2.1 r.2.2)
        if r.2.2.isSome then c2.AbortWithStatus 403
        else if r.1.isSome then c2.AbortWithStatus 403
        else
          let rbr := E.RequestBodyReader c2.tx
          let c3 := c2.call (TxEvent.RequestBodyReader rbr.1 rbr.2)
          if rbr.2.isSome then c3.AbortWithStatus 403
          else
            processRequestBody E cfg handler
              { c3 with Body := some (rbr.1 ++ sliceFrom body r.2.1.toNat) }
      | none => processRequestBody E cfg handler c1
    else invokeHandler E cfg handler c1
  else invokeHandler E cfg handler c

/-- Lines 112-116 and on: `tx.ProcessRequestHeaders()`. -/
def processRequestHeaders (E : Engine) (cfg : Waf) (handler : List HandlerOp) (c : Context) :
    Context :=
  let r := E.ProcessRequestHeaders c.tx
  let c1 := c.call (TxEvent.ProcessRequestHeaders r)
  if r.isSome then c1.AbortWithStatus 403
  else requestBodyPhase E cfg handler c1

/-- Lines 101-116 and on: the request-header phase.  `req.TransferEncoding[0]`
    on a non-nil empty slice is a Go panic. -/
def requestHeaderPhase (E : Engine) (cfg : Waf) (req : Request) (handler : List HandlerOp)
    (c : Context) : Context :=
  if cfg.CheckReqHeader then
    let c1 :=
      if req.Host ≠ "" then
        (c.call (TxEvent.AddRequestHeader "Host" req.Host)).call (TxEvent.SetServerName req.Host)
      else c
    match req.TransferEncoding with
    | some [] => { c1 with panicked := true }
    | some (te :: _) =>
      processRequestHeaders E cfg handler (c1.call (TxEvent.AddRequestHeader "Transfer-Encoding" te))
    | none => processRequestHeaders E cfg handler c1
  else requestBodyPhase E cfg handler c

/-- Lines 81-99 and on: the body of the handler function after the transaction
    is created.  `req.Proto[5:]` on a protocol string shorter than five bytes is
    a Go panic. -/
def inspect (E : Engine) (cfg : Waf) (req : Request) (handler : List HandlerOp)
    (c : Context) : Context :=
  let off := E.IsRuleEngineOff c.tx
  let c1 := c.call (TxEvent.IsRuleEngineOff off)
  if off then
    { c1 with Writer := runOnWriter handler c1.Writer, nextCalls := c1.nextCalls + 1 }
  else
    let ca := clientAddr req.RemoteAddr
    let c2 := c1.call (TxEvent.ProcessConnection ca.1 ca.2 req.Host 443)
    if req.Proto.length < 5 then { c2 with panicked := true }
    else
      requestHeaderPhase E cfg req handler
        (c2.call (TxEvent.ProcessURI req.URL req.Method (sliceFrom req.Proto 5)))

/-- What one run of the middleware leaves behind: the final context, the
    updated path map, and whether a transaction was created. -/
structure Outcome extends Context where
  Waf : PathMap
  txCreated : Bool

/-- Embedding of the function returned by `func (waf *GinCoraza) GinCoraza()`,
    run on one request with the downstream `handler`.  The deferred function
    (`tx.ProcessLogging(); tx.Close()`) runs when the body returns or panics. -/
def GinCoraza (E : Engine) (m : PathMap) (req : Request) (handler : List HandlerOp)
    (w : GinWriter) : Outcome :=
  let fullPath := req.Path
  let m1 := PreRegisertPath m fullPath
  let cfg := m1.index fullPath
  let c0 : Context :=
    { tx := [], Writer := w, interceptor := none, Body := req.Body, nextCalls := 0,
      aborts := [], panicked := false }
  if !cfg.IsEnable then
    { toContext := { c0 with Writer := runOnWriter handler c0.Writer, nextCalls := 1 },
      Waf := m1, txCreated := false }
  else
    let c := inspect E cfg req handler c0
    { toContext := (c.call TxEvent.ProcessLogging).call TxEvent.Close,
      Waf := m1, txCreated := true }

/-! ## Concrete engines and inputs used to evaluate the code -/

/-- An engine that is on, never interrupts, never fails, inspects no body and
    accepts every byte written to it. -/
def Engine.quiet : Engine where
  IsRuleEngineOff := fun _ => false
  ProcessRequestHeaders := fun _ => none
  IsRequestBodyAccessible := fun _ => false
  ReadRequestBodyFrom := fun _ b => (none, b.length, none)
  RequestBodyReader := fun _ => ("", none)
  ProcessRequestBody := fun _ => (none, none)
  Interruption := fun _ => none
  ProcessResponseHeaders := fun _ _ _ => none
  WriteResponseBody := fun _ b => (none, b.length, none)
  IsInterrupted := fun _ => false
  IsResponseBodyAccessible := fun _ => false
  IsResponseBodyProcessable := fun _ => false
  ProcessResponseBody := fun _ => (none, none)
  ResponseBodyReader := fun _ => ("", none)

/-- A plain GET request from `1.2.3.4:8080`. -/
def Request.sample : Request :=
  { Path := "/a", URL := "/a?x=1", Method := "GET", Proto := "HTTP/1.1", Host := "example.org",
    RemoteAddr := "1.2.3.4:8080", TransferEncoding := none, Body := none }

/-- A verdict whose status is not 403. -/
def Interruption.tooMany : Interruption :=
  { RuleID := 7, Action := "deny", Status := 429, Data := "" }

/-- An engine that answers `ProcessRequestHeaders` with a verdict of status 429. -/
def Engine.blockHeaders : Engine :=
  { Engine.quiet with ProcessRequestHeaders := fun _ => some Interruption.tooMany }

/-- Did a `WriteResponseBody` call of the history return a verdict? -/
def TxEvent.isBlockedWrite : TxEvent → Bool
  | .WriteResponseBody _ (some _) _ _ => true
  | _ => false

/-- An engine that answers every `WriteResponseBody` with a verdict of status
    429 and reports the transaction interrupted from then on. -/
def Engine.blockWrites : Engine :=
  { Engine.quiet with
    WriteResponseBody := fun _ _ => (some Interruption.tooMany, 0, none)
    Interruption := fun t => if t.any TxEvent.isBlockedWrite then some Interruption.tooMany else none
    IsInterrupted := fun t => t.any TxEvent.isBlockedWrite }

/-- An engine whose `ProcessResponseBody` fails. -/
def Engine.failBody : Engine :=
  { Engine.quiet with
    IsResponseBodyAccessible := fun _ => true
    IsResponseBodyProcessable := fun _ => true
    ProcessResponseBody := fun _ => (none, some "engine failure") }

/-- An engine whose `ResponseBodyReader` fails. -/
def Engine.failReader : Engine :=
  { Engine.quiet with ResponseBodyReader := fun _ => ("", some "reader failure") }

/-- The heap a fresh decorator starts from: no call made, nothing written. -/
def Heap.fresh : Heap := { tx := [], ResponseWriter := GinWriter.fresh }

/-! ## Proof devices for traces -/

/-- The position of a call in the fixed order of phases. -/
def TxEvent.stage : TxEvent → Nat
  | .IsRuleEngineOff _ => 0
  | .ProcessConnection _ _ _ _ => 1
  | .ProcessURI _ _ _ => 2
  | .AddRequestHeader _ _ => 3
  | .SetServerName _ => 3
  | .ProcessRequestHeaders _ => 4
  | .IsRequestBodyAccessible _ => 5
  | .ReadRequestBodyFrom _ _ _ => 5
  | .RequestBodyReader _ _ => 5
  | .ProcessRequestBody _ _ => 6
  | .Interruption _ => 7
  | .AddResponseHeader _ _ => 7
  | .ProcessResponseHeaders _ _ _ => 7
  | .WriteResponseBody _ _ _ _ => 7
  | .IsInterrupted _ => 8
  | .IsResponseBodyAccessible _ => 9
  | .IsResponseBodyProcessable _ => 9
  | .ProcessResponseBody _ _ => 9
  | .ResponseBodyReader _ _ => 9
  | .ProcessLogging => 10
  | .Close => 11

/-- The answers on which the middleware stops, with the status it passes to
    `c.AbortWithStatus` on each; `none` for an answer after which it goes on. -/
def TxEvent.abortCode : TxEvent → Option Int
  | .ProcessRequestHeaders r => if r.isSome then some 403 else none
  | .ReadRequestBodyFrom r _ err => if err.isSome || r.isSome then some 403 else none
  | .RequestBodyReader _ err => if err.isSome then some 403 else none
  | .ProcessRequestBody r err => if err.isSome || r.isSome then some 403 else none
  | .IsInterrupted r => if r then some 403 else none
  | .ProcessResponseBody r err =>
    if err.isSome then some 500 else if r.isSome then some 403 else none
  | .ResponseBodyReader _ err => if err.isSome then some 403 else none
  | _ => none

/-- The run from context `c` to context `r` made calls of stage `k` or later
    only, none of them a closing call; it aborted exactly when one of these
    calls got a stopping answer, with the status of that answer; and it did not
    reach the downstream handler if a request-phase call got a stopping answer. -/
def Extends (k : Nat) (c r : Context) : Prop :=
  ∃ ext : Tx, r.tx = c.tx ++ ext ∧
    (∀ e ∈ ext, k ≤ e.stage ∧ e.stage < 10) ∧
    (∀ e ∈ ext, ∀ code, e.abortCode = some code → r.aborts = c.aborts ++ [code]) ∧
    ((∃ e ∈ ext, e.stage < 7 ∧ e.abortCode ≠ none) → r.nextCalls = c.nextCalls) ∧
    (r.aborts = c.aborts ∨ ∃ e ∈ ext, ∃ code, e.abortCode = some code ∧ r.aborts = c.aborts ++ [code])

/-- Is the call `tx.ProcessResponseHeaders`? -/
def TxEvent.isProcessResponseHeaders : TxEvent → Bool
  | .ProcessResponseHeaders _ _ _ => true
  | _ => false

/-! ## Client address parsing: lemmas -/

theorem lastIndexLoop_absent (s : List Char) (c : Char) (h : c ∉ s) (n : Nat) :
    lastIndexLoop s c n = -1 := by
  induction n with
  | zero => rfl
  | succ i ih =>
    have hne : s[i]? ≠ some c := fun hc => h (List.getElem?_mem hc)
    rw [lastIndexLoop, if_neg hne, ih]

theorem lastIndexLoop_last (pre post : List Char) (c : Char) (h : c ∉ post) (k : Nat) :
    lastIndexLoop (pre ++ c :: post) c (pre.length + 1 + k) = pre.length := by
  induction k with
  | zero =>
    have hc : (pre ++ c :: post)[pre.length]? = some c := by
      rw [List.getElem?_append_right (Nat.le_refl _)]
      simp
    rw [Nat.add_zero, lastIndexLoop, if_pos hc]
  | succ k ih =>
    have hne : (pre ++ c :: post)[pre.length + 1 + k]? ≠ some c := by
      intro hc
      rw [List.getElem?_append_right (by omega)] at hc
      have e : pre.length + 1 + k - pre.length = k + 1 := by omega
      rw [e, List.getElem?_cons_succ] at hc
      exact h (List.getElem?_mem hc)
    have e : pre.length + 1 + (k + 1) = (pre.length + 1 + k) + 1 := by omega
    rw [e, lastIndexLoop, if_neg hne, ih]

theorem clientAddr_no_colon (s : String) (h : ':' ∉ s.data) : clientAddr s = ("", 0) := by
  simp [clientAddr, LastIndexByte, lastIndexLoop_absent s.data ':' h]

theorem clientAddr_split (host port : String) (h : ':' ∉ port.data) :
    clientAddr (host ++ ":" ++ port) = (host, (Atoi port).1) := by
  have hd : (host ++ ":" ++ port).data = host.data ++ ':' :: port.data := by
    simp [String.data_append]
  have hl : LastIndexByte (host ++ ":" ++ port) ':' = host.data.length := by
    unfold LastIndexByte
    rw [hd]
    have := lastIndexLoop_last host.data port.data ':' h port.data.length
    have e : (host.data ++ ':' :: port.data).length = host.data.length + 1 + port.data.length := by
      simp; omega
    rw [e, this]
  have hne : ((host.data.length : Nat) : Int) ≠ -1 := by omega
  have h1 : List.take host.data.length (host.data ++ ':' :: port.data) = host.data := by simp
  have h2 : List.drop (host.data.length + 1) (host.data ++ ':' :: port.data) = port.data := by
    rw [List.drop_append]; rfl
  simp only [clientAddr, hl, ne_eq, hne, not_false_eq_true, if_true, Int.toNat_ofNat, sliceTo,
    sliceFrom, hd, h1, h2]

/-! ## Traces: how each phase extends the transaction -/

theorem Extends.of_same {k : Nat} {c r : Context} (h1 : r.tx = c.tx) (h2 : r.aborts = c.aborts) :
    Extends k c r :=
  ⟨[], by simp [h1], by simp, by simp, by simp, Or.inl h2⟩

theorem Extends.of_core {k : Nat} {c c1 r r1 : Context}
    (hc : c1.tx = c.tx ∧ c1.aborts = c.aborts ∧ c1.nextCalls = c.nextCalls)
    (hr : r1.tx = r.tx ∧ r1.aborts = r.aborts ∧ r1.nextCalls = r.nextCalls)
    (h : Extends k c1 r1) : Extends k c r := by
  obtain ⟨ext, h1, h2, h3, h4, h5⟩ := h
  refine ⟨ext, ?_, h2, ?_, ?_, ?_⟩
  · rw [← hr.1, h1, hc.1]
  · intro e he code hcode
    rw [← hr.2.1, h3 e he code hcode, hc.2.1]
  · intro hx
    rw [← hr.2.2, h4 hx, hc.2.2]
  · rw [← hr.2.1, ← hc.2.1]
    exact h5

theorem Extends.abort {k : Nat} (c : Context) (e : TxEvent) (code : Int)
    (hs : k ≤ e.stage ∧ e.stage < 10) (ha : e.abortCode = some code) :
    Extends k c ((c.call e).AbortWithStatus code) := by
  refine ⟨[e], rfl, ?_, ?_, ?_, ?_⟩
  · intro x hx
    rw [List.mem_singleton] at hx
    subst hx
    exact hs
  · intro x hx code1 hc
    rw [List.mem_singleton] at hx
    subst hx
    rw [ha] at hc
    cases hc
    rfl
  · intro _
    rfl
  · exact Or.inr ⟨e, List.mem_singleton.2 rfl, code, ha, rfl⟩

theorem Extends.step {k j : Nat} {c r : Context} (e : TxEvent)
    (hs : k ≤ e.stage ∧ e.stage < 10) (ha : e.abortCode = none) (hkj : k ≤ j)
    (h : Extends j (c.call e) r) : Extends k c r := by
  obtain ⟨ext, h1, h2, h3, h4, h5⟩ := h
  refine ⟨e :: ext, ?_, ?_, ?_, ?_, ?_⟩
  · rw [h1]
    simp [Context.call]
  · intro x hx
    rcases List.mem_cons.1 hx with rfl | hx
    · exact hs
    · exact ⟨le_trans hkj (h2 x hx).1, (h2 x hx).2⟩
  · intro x hx code hc
    rcases List.mem_cons.1 hx with rfl | hx
    · rw [ha] at hc
      cases hc
    · exact h3 x hx code hc
  · rintro ⟨x, hx, hx7, hxa⟩
    rcases List.mem_cons.1 hx with rfl | hx
    · exact absurd ha hxa
    · exact h4 ⟨x, hx, hx7, hxa⟩
  · rcases h5 with h5 | ⟨x, hx, code, hc, hr⟩
    · exact Or.inl h5
    · exact Or.inr ⟨x, List.mem_cons_of_mem _ hx, code, hc, hr⟩

theorem Extends.mono {k j : Nat} {c r : Context} (hkj : k ≤ j) (h : Extends j c r) :
    Extends k c r := by
  obtain ⟨ext, h1, h2, h3, h4, h5⟩ := h
  exact ⟨ext, h1, fun e he => ⟨le_trans hkj (h2 e he).1, (h2 e he).2⟩, h3, h4, h5⟩

theorem abortCode_of_stage_seven (e : TxEvent) (h : e.stage = 7) : e.abortCode = none := by
  cases e <;> simp [TxEvent.stage] at h <;> rfl

/-- The handler phase: calls of stage 7, then a run of stage 8 or later. -/
theorem Extends.handler {c r : Context} (c1 : Context) (hev : Tx) (h7 : ∀ e ∈ hev, e.stage = 7)
    (htx : c1.tx = c.tx ++ hev) (hab : c1.aborts = c.aborts)
    (h : Extends 8 c1 r) : Extends 7 c r := by
  obtain ⟨ext, h1, h2, h3, h4, h5⟩ := h
  refine ⟨hev ++ ext, ?_, ?_, ?_, ?_, ?_⟩
  · rw [h1, htx, List.append_assoc]
  · intro x hx
    rcases List.mem_append.1 hx with hx | hx
    · rw [h7 x hx]
      omega
    · have := h2 x hx
      omega
  · intro x hx code hc
    rcases List.mem_append.1 hx with hx | hx
    · rw [abortCode_of_stage_seven x (h7 x hx)] at hc
      cases hc
    · rw [h3 x hx code hc, hab]
  · rintro ⟨x, hx, hx7, _⟩
    exfalso
    rcases List.mem_append.1 hx with hx | hx
    · have := h7 x hx
      omega
    · have := (h2 x hx).1
      omega
  · rcases h5 with h5 | ⟨x, hx, code, hc, hr⟩
    · exact Or.inl (h5.trans hab)
    · exact Or.inr ⟨x, List.mem_append_right _ hx, code, hc, hr.trans (by rw [hab])⟩

/-- A transaction extends itself by no call at all. -/
theorem grows_refl (t : Tx) : ∃ ext : Tx, t = t ++ ext ∧ ∀ e ∈ ext, e.stage = 7 :=
  ⟨[], by simp, by simp⟩

/-- Extensions by calls of the handler phase compose. -/
theorem grows_trans {t t1 t2 : Tx}
    (h1 : ∃ ext : Tx, t1 = t ++ ext ∧ ∀ e ∈ ext, e.stage = 7)
    (h2 : ∃ ext : Tx, t2 = t1 ++ ext ∧ ∀ e ∈ ext, e.stage = 7) :
    ∃ ext : Tx, t2 = t ++ ext ∧ ∀ e ∈ ext, e.stage = 7 := by
  obtain ⟨a, ha, ha7⟩ := h1
  obtain ⟨b, hb, hb7⟩ := h2
  refine ⟨a ++ b, by rw [hb, ha, List.append_assoc], ?_⟩
  intro e he
  rcases List.mem_append.1 he with he | he
  · exact ha7 e he
  · exact hb7 e he

theorem addResponseHeaders_stage (header : List (String × List String)) :
    ∀ e ∈ addResponseHeaders header, e.stage = 7 := by
  intro e he
  simp only [addResponseHeaders, List.mem_flatMap, List.mem_map] at he
  obtain ⟨_, _, _, _, rfl⟩ := he
  rfl

theorem processResponseHeaders_grows (E : Engine) (w : responseWriter) (h : Heap) :
    ∃ ext : Tx, (w.processResponseHeaders E h).2.2.tx = h.tx ++ ext ∧ ∀ e ∈ ext, e.stage = 7 := by
  unfold responseWriter.processResponseHeaders
  by_cases hp : w.headersProcessed = true
  · simp only [hp, if_true]
    exact ⟨[_], rfl, by simp [TxEvent.stage]⟩
  · by_cases hi : (E.Interruption h.tx).isSome = true
    · simp only [hp, hi, if_true]
      exact grows_trans ⟨[_], rfl, by simp [TxEvent.stage]⟩ ⟨[_], rfl, by simp [TxEvent.stage]⟩
    · simp only [hp, hi]
      refine ⟨TxEvent.Interruption (E.Interruption h.tx) ::
        (addResponseHeaders h.ResponseWriter.header ++ [_]), by simp; rfl, ?_⟩
      intro e he
      rcases List.mem_cons.1 he with rfl | he
      · rfl
      · rcases List.mem_append.1 he with he | he
        · exact addResponseHeaders_stage _ e he
        · rw [List.mem_singleton] at he
          subst he
          rfl

theorem WriteString_grows (E : Engine) (w : responseWriter) (h : Heap) (s : String) :
    ∃ ext : Tx, (w.WriteString E h s).2.2.tx = h.tx ++ ext ∧ ∀ e ∈ ext, e.stage = 7 := by
  have hp : ∃ ext : Tx,
      (if w.checkRespHeaders then w.processResponseHeaders E h else (none, w, h)).2.2.tx
        = h.tx ++ ext ∧ ∀ e ∈ ext, e.stage = 7 := by
    split_ifs
    · exact processResponseHeaders_grows E w h
    · exact grows_refl _
  unfold responseWriter.WriteString
  simp only []
  generalize (if w.checkRespHeaders = true then w.processResponseHeaders E h else (none, w, h))
    = q at hp ⊢
  split_ifs
  · exact hp
  · exact grows_trans hp ⟨[_], rfl, by simp [TxEvent.stage]⟩
  · exact grows_trans hp ⟨[_], rfl, by simp [TxEvent.stage]⟩
  · exact hp

theorem Write_grows (E : Engine) (w : responseWriter) (h : Heap) (b : String) :
    ∃ ext : Tx, (w.Write E h b).2.2.tx = h.tx ++ ext ∧ ∀ e ∈ ext, e.stage = 7 := by
  have hp : ∃ ext : Tx,
      (if w.checkRespHeaders then w.processResponseHeaders E h else (none, w, h)).2.2.tx
        = h.tx ++ ext ∧ ∀ e ∈ ext, e.stage = 7 := by
    split_ifs
    · exact processResponseHeaders_grows E w h
    · exact grows_refl _
  unfold responseWriter.Write
  simp only []
  generalize (if w.checkRespHeaders = true then w.processResponseHeaders E h else (none, w, h))
    = q at hp ⊢
  split_ifs
  · exact hp
  · exact grows_trans hp ⟨[_], rfl, by simp [TxEvent.stage]⟩
  · exact grows_trans hp ⟨[_], rfl, by simp [TxEvent.stage]⟩
  · exact hp

theorem onInterceptor_grows (E : Engine) (op : HandlerOp) (w : responseWriter) (h : Heap) :
    ∃ ext : Tx, (op.onInterceptor E w h).2.2.tx = h.tx ++ ext ∧ ∀ e ∈ ext, e.stage = 7 := by
  cases op with
  | Write b => exact Write_grows E w h b
  | WriteString s => exact WriteString_grows E w h s
  | WriteHeader code => exact grows_refl _
  | SetHeader k v => exact grows_refl _

theorem runOnInterceptor_grows (E : Engine) (ops : List HandlerOp) :
    ∀ (w : responseWriter) (h : Heap),
      ∃ ext : Tx, (runOnInterceptor E ops w h).2.2.tx = h.tx ++ ext ∧ ∀ e ∈ ext, e.stage = 7 := by
  induction ops with
  | nil => intro w h; exact grows_refl _
  | cons op rest ih =>
    intro w h
    exact grows_trans (onInterceptor_grows E op w h) (ih _ _)

/-! ## Traces: the phases of the middleware -/

theorem flushResponseBody_extends (E : Engine) (c : Context) :
    Extends 9 c (flushResponseBody E c) := by
  unfold flushResponseBody
  simp only []
  split_ifs with h
  · exact Extends.abort c _ 403 (by simp [TxEvent.stage]) (by simp [TxEvent.abortCode, h])
  · exact Extends.step _ (by simp [TxEvent.stage]) (by simp [TxEvent.abortCode, h])
      (Nat.le_refl 9) (Extends.of_same rfl rfl)

theorem afterHandler_extends (E : Engine) (cfg : Waf) (c : Context) :
    Extends 8 c (afterHandler E cfg c) := by
  unfold afterHandler
  simp only []
  split_ifs with h1 h2 h3 h4 h5 h6
  · exact Extends.abort c _ 403 (by simp [TxEvent.stage]) (by simp [TxEvent.abortCode, h1])
  · exact Extends.step _ (by simp [TxEvent.stage]) (by simp [TxEvent.abortCode, h1])
      (by decide : 8 ≤ 9)
      (Extends.step _ (by simp [TxEvent.stage]) (by rfl) (Nat.le_refl 9)
        (Extends.step _ (by simp [TxEvent.stage]) (by rfl) (Nat.le_refl 9)
          (Extends.abort _ _ 500 (by simp [TxEvent.stage]) (by simp [TxEvent.abortCode, h5]))))
  · exact Extends.step _ (by simp [TxEvent.stage]) (by simp [TxEvent.abortCode, h1])
      (by decide : 8 ≤ 9)
      (Extends.step _ (by simp [TxEvent.stage]) (by rfl) (Nat.le_refl 9)
        (Extends.step _ (by simp [TxEvent.stage]) (by rfl) (Nat.le_refl 9)
          (Extends.abort _ _ 403 (by simp [TxEvent.stage])
            (by simp [TxEvent.abortCode, h5, h6]))))
  · exact Extends.step _ (by simp [TxEvent.stage]) (by simp [TxEvent.abortCode, h1])
      (by decide : 8 ≤ 9)
      (Extends.step _ (by simp [TxEvent.stage]) (by rfl) (Nat.le_refl 9)
        (Extends.step _ (by simp [TxEvent.stage]) (by rfl) (Nat.le_refl 9)
          (Extends.step _ (by simp [TxEvent.stage]) (by simp [TxEvent.abortCode, h5, h6])
            (Nat.le_refl 9) (flushResponseBody_extends E _))))
  · exact Extends.step _ (by simp [TxEvent.stage]) (by simp [TxEvent.abortCode, h1])
      (by decide : 8 ≤ 9)
      (Extends.step _ (by simp [TxEvent.stage]) (by rfl) (Nat.le_refl 9)
        (Extends.step _ (by simp [TxEvent.stage]) (by rfl) (Nat.le_refl 9)
          (flushResponseBody_extends E _)))
  · exact Extends.step _ (by simp [TxEvent.stage]) (by simp [TxEvent.abortCode, h1])
      (by decide : 8 ≤ 9)
      (Extends.step _ (by simp [TxEvent.stage]) (by rfl) (Nat.le_refl 9)
        (flushResponseBody_extends E _))
  · exact Extends.step _ (by simp [TxEvent.stage]) (by simp [TxEvent.abortCode, h1])
      (Nat.le_refl 8) (Extends.of_same rfl rfl)

theorem invokeHandler_extends (E : Engine) (cfg : Waf) (handler : List HandlerOp) (c : Context) :
    Extends 7 c (invokeHandler E cfg handler c) := by
  unfold invokeHandler
  simp only []
  obtain ⟨hev, h1, h7⟩ := runOnInterceptor_grows E handler
    (newResponseWriter cfg.CheckRespHeader cfg.CheckRespBody)
    { tx := c.tx, ResponseWriter := c.Writer }
  refine Extends.handler _ hev h7 ?_ ?_ (afterHandler_extends E cfg _)
  · exact h1
  · rfl

theorem processRequestBody_extends (E : Engine) (cfg : Waf) (handler : List HandlerOp)
    (c : Context) : Extends 6 c (processRequestBody E cfg handler c) := by
  unfold processRequestBody
  simp only []
  split_ifs with h1 h2
  · exact Extends.abort c _ 403 (by simp [TxEvent.stage]) (by simp [TxEvent.abortCode, h1])
  · exact Extends.abort c _ 403 (by simp [TxEvent.stage]) (by simp [TxEvent.abortCode, h2])
  · exact Extends.step _ (by simp [TxEvent.stage]) (by simp [TxEvent.abortCode, h1, h2])
      (by decide : 6 ≤ 7) (invokeHandler_extends E cfg handler _)

theorem requestBodyPhase_extends (E : Engine) (cfg : Waf) (handler : List HandlerOp)
    (c : Context) : Extends 5 c (requestBodyPhase E cfg handler c) := by
  unfold requestBodyPhase
  simp only []
  split_ifs with h1 h2
  · split
    · split_ifs with h3 h4 h5
      · exact Extends.step _ (by simp [TxEvent.stage]) (by rfl) (Nat.le_refl 5)
          (Extends.abort _ _ 403 (by simp [TxEvent.stage]) (by simp [TxEvent.abortCode, h3]))
      · exact Extends.step _ (by simp [TxEvent.stage]) (by rfl) (Nat.le_refl 5)
          (Extends.abort _ _ 403 (by simp [TxEvent.stage]) (by simp [TxEvent.abortCode, h4]))
      · exact Extends.step _ (by simp [TxEvent.stage]) (by rfl) (Nat.le_refl 5)
          (Extends.step _ (by simp [TxEvent.stage]) (by simp [TxEvent.abortCode, h3, h4])
            (Nat.le_refl 5)
            (Extends.abort _ _ 403 (by simp [TxEvent.stage]) (by simp [TxEvent.abortCode, h5])))
      · exact Extends.step _ (by simp [TxEvent.stage]) (by rfl) (Nat.le_refl 5)
          (Extends.step _ (by simp [TxEvent.stage]) (by simp [TxEvent.abortCode, h3, h4])
            (Nat.le_refl 5)
            (Extends.step _ (by simp [TxEvent.stage]) (by simp [TxEvent.abortCode, h5])
              (by decide : 5 ≤ 6)
              (Extends.of_core ⟨rfl, rfl, rfl⟩ ⟨rfl, rfl, rfl⟩
                (processRequestBody_extends E cfg handler _))))
    · exact Extends.step _ (by simp [TxEvent.stage]) (by rfl) (by decide : 5 ≤ 6)
        (processRequestBody_extends E cfg handler _)
  · exact Extends.step _ (by simp [TxEvent.stage]) (by rfl) (by decide : 5 ≤ 7)
      (invokeHandler_extends E cfg handler _)
  · exact Extends.mono (by decide : 5 ≤ 7) (invokeHandler_extends E cfg handler _)

theorem processRequestHeaders_extends (E : Engine) (cfg : Waf) (handler : List HandlerOp)
    (c : Context) : Extends 4 c (processRequestHeaders E cfg handler c) := by
  unfold processRequestHeaders
  simp only []
  split_ifs with h1
  · exact Extends.abort c _ 403 (by simp [TxEvent.stage]) (by simp [TxEvent.abortCode, h1])
  · exact Extends.step _ (by simp [TxEvent.stage]) (by simp [TxEvent.abortCode, h1])
      (by decide : 4 ≤ 5) (requestBodyPhase_extends E cfg handler _)

theorem requestHeaderPhase_extends (E : Engine) (cfg : Waf) (req : Request)
    (handler : List HandlerOp) (c : Context) :
    Extends 3 c (requestHeaderPhase E cfg req handler c) := by
  unfold requestHeaderPhase
  simp only []
  by_cases h1 : cfg.CheckReqHeader = true
  · rw [if_pos h1]
    by_cases hh : req.Host ≠ ""
    · rw [if_pos hh]
      split
      · exact Extends.step _ (by simp [TxEvent.stage]) (by rfl) (Nat.le_refl 3)
          (Extends.step _ (by simp [TxEvent.stage]) (by rfl) (Nat.le_refl 3)
            (Extends.of_same rfl rfl))
      · exact Extends.step _ (by simp [TxEvent.stage]) (by rfl) (Nat.le_refl 3)
          (Extends.step _ (by simp [TxEvent.stage]) (by rfl) (Nat.le_refl 3)
            (Extends.step _ (by simp [TxEvent.stage]) (by rfl) (by decide : 3 ≤ 4)
              (processRequestHeaders_extends E cfg handler _)))
      · exact Extends.step _ (by simp [TxEvent.stage]) (by rfl) (Nat.le_refl 3)
          (Extends.step _ (by simp [TxEvent.stage]) (by rfl) (by decide : 3 ≤ 4)
            (processRequestHeaders_extends E cfg handler _))
    · rw [if_neg hh]
      split
      · exact Extends.of_same rfl rfl
      · exact Extends.step _ (by simp [TxEvent.stage]) (by rfl) (by decide : 3 ≤ 4)
          (processRequestHeaders_extends E cfg handler _)
      · exact Extends.mono (by decide : 3 ≤ 4) (processRequestHeaders_extends E cfg handler _)
  · rw [if_neg h1]
    exact Extends.mono (by decide : 3 ≤ 5) (requestBodyPhase_extends E cfg handler _)

theorem inspect_extends (E : Engine) (cfg : Waf) (req : Request) (handler : List HandlerOp)
    (c : Context) : Extends 0 c (inspect E cfg req handler c) := by
  unfold inspect
  simp only []
  split_ifs with h1 h2
  · exact Extends.step _ (by simp [TxEvent.stage]) (by rfl) (Nat.le_refl 0)
      (Extends.of_same rfl rfl)
  · exact Extends.step _ (by simp [TxEvent.stage]) (by rfl) (Nat.le_refl 0)
      (Extends.step _ (by simp [TxEvent.stage]) (by rfl) (Nat.le_refl 0)
        (Extends.of_same rfl rfl))
  · exact Extends.step _ (by simp [TxEvent.stage]) (by rfl) (Nat.le_refl 0)
      (Extends.step _ (by simp [TxEvent.stage]) (by rfl) (Nat.le_refl 0)
        (Extends.step _ (by simp [TxEvent.stage]) (by rfl) (by decide : 0 ≤ 3)
          (requestHeaderPhase_extends E cfg req handler _)))

/-- Every `ProcessConnection` call of `inspect` carries the pair computed by
    `clientAddr`, the host of the request and the fixed port 443. -/
theorem inspect_connect (E : Engine) (cfg : Waf) (req : Request) (handler : List HandlerOp)
    (c : Context) (hc : ∀ e ∈ c.tx, e.stage ≠ 1) :
    ∀ e ∈ (inspect E cfg req handler c).tx, e.stage = 1 →
      e = TxEvent.ProcessConnection (clientAddr req.RemoteAddr).1 (clientAddr req.RemoteAddr).2
            req.Host 443 := by
  intro e he hs
  unfold inspect at he
  simp only [] at he
  split_ifs at he with h1 h2
  · simp only [Context.call, List.mem_append, List.mem_singleton] at he
    rcases he with he | rfl
    · exact absurd hs (hc e he)
    · simp [TxEvent.stage] at hs
  · simp only [Context.call, List.mem_append, List.mem_singleton] at he
    rcases he with (he | rfl) | rfl
    · exact absurd hs (hc e he)
    · simp [TxEvent.stage] at hs
    · rfl
  · obtain ⟨ext, htx, hst, -⟩ := requestHeaderPhase_extends E cfg req handler
      (((c.call (TxEvent.IsRuleEngineOff (E.IsRuleEngineOff c.tx))).call
        (TxEvent.ProcessConnection (clientAddr req.RemoteAddr).1 (clientAddr req.RemoteAddr).2
          req.Host 443)).call
        (TxEvent.ProcessURI req.URL req.Method (sliceFrom req.Proto 5)))
    rw [htx] at he
    simp only [Context.call, List.mem_append, List.mem_singleton] at he
    rcases he with (((he | rfl) | rfl) | rfl) | he
    · exact absurd hs (hc e he)
    · simp [TxEvent.stage] at hs
    · rfl
    · simp [TxEvent.stage] at hs
    · have := (hst e he).1
      omega

/-- The shape of the transaction of a whole run: nothing when no transaction is
    created; otherwise the calls of `inspect` followed by the two deferred ones. -/
theorem GinCoraza_tx (E : Engine) (m : PathMap) (req : Request) (handler : List HandlerOp)
    (w : GinWriter) :
    ((GinCoraza E m req handler w).txCreated = false ∧ (GinCoraza E m req handler w).tx = []) ∨
    ((GinCoraza E m req handler w).txCreated = true ∧
      ∃ c : Context,
        c = inspect E ((PreRegisertPath m req.Path).index req.Path) req handler
              { tx := [], Writer := w, interceptor := none, Body := req.Body, nextCalls := 0,
                aborts := [], panicked := false } ∧
        (GinCoraza E m req handler w).tx = c.tx ++ [TxEvent.ProcessLogging, TxEvent.Close] ∧
        (GinCoraza E m req handler w).aborts = c.aborts ∧
        (GinCoraza E m req handler w).nextCalls = c.nextCalls) := by
  unfold GinCoraza
  simp only []
  split_ifs with h
  · exact Or.inl ⟨rfl, rfl⟩
  · exact Or.inr ⟨rfl, _, rfl, by simp [Context.call], rfl, rfl⟩

/-- The summary of a run that created a transaction. -/
theorem GinCoraza_run (E : Engine) (m : PathMap) (req : Request) (handler : List HandlerOp)
    (w : GinWriter)
    (hne : (GinCoraza E m req handler w).txCreated = true ∨ (GinCoraza E m req handler w).tx ≠ []) :
    ∃ ext : Tx, (GinCoraza E m req handler w).tx = ext ++ [TxEvent.ProcessLogging, TxEvent.Close] ∧
      (∀ x ∈ ext, x.stage < 10) ∧
      (∀ x ∈ ext, ∀ code, x.abortCode = some code →
        (GinCoraza E m req handler w).aborts = [code]) ∧
      ((∃ x ∈ ext, x.stage < 7 ∧ x.abortCode ≠ none) →
        (GinCoraza E m req handler w).nextCalls = 0) ∧
      (∀ x ∈ ext, x.stage = 1 →
        x = TxEvent.ProcessConnection (clientAddr req.RemoteAddr).1
              (clientAddr req.RemoteAddr).2 req.Host 443) := by
  rcases GinCoraza_tx E m req handler w with ⟨hf, h0⟩ | ⟨-, c, hc, htx, hab, hnx⟩
  · rcases hne with ht | ht
    · rw [hf] at ht
      cases ht
    · exact absurd h0 ht
  · have hx := inspect_extends E ((PreRegisertPath m req.Path).index req.Path) req handler
      { tx := [], Writer := w, interceptor := none, Body := req.Body, nextCalls := 0,
        aborts := [], panicked := false }
    have hcon := inspect_connect E ((PreRegisertPath m req.Path).index req.Path) req handler
      { tx := [], Writer := w, interceptor := none, Body := req.Body, nextCalls := 0,
        aborts := [], panicked := false } (by simp)
    rw [← hc] at hx hcon
    obtain ⟨ext, h1, h2, h3, h4, -⟩ := hx
    simp only [List.nil_append] at h1 h3
    refine ⟨ext, by rw [htx, h1], fun x hx => (h2 x hx).2, ?_, ?_, ?_⟩
    · intro x hx code hcode
      rw [hab, h3 x hx code hcode]
    · intro hex
      rw [hnx, h4 hex]
    · intro x hx
      exact hcon x (by rw [h1]; exact hx)

/-- A call that is not one of the two deferred ones and occurs in the
    transaction of a run occurs before them. -/
theorem mem_before_deferred {ext : Tx} {e : TxEvent} (hs : e.stage < 10)
    (h : e ∈ ext ++ [TxEvent.ProcessLogging, TxEvent.Close]) : e ∈ ext := by
  rcases List.mem_append.1 h with h | h
  · exact h
  · simp only [List.mem_cons, List.mem_singleton, List.not_mem_nil, or_false] at h
    rcases h with rfl | rfl <;> simp [TxEvent.stage] at hs

/-! ## The decorator: what the value receiver of `Write` does -/

/-- A `Write` call leaves the fields of the decorator as they were. -/
theorem Write_keeps_struct (E : Engine) (w : responseWriter) (h : Heap) (b : String) :
    (w.Write E h b).2.1 = w := by
  unfold responseWriter.Write
  simp only []
  split_ifs <;> rfl

/-! ## The properties of the design document -/

/-- C1 (counterexample): on a fresh store, the automatic registration of `/a`
    followed by the explicit registration of `/a` with every setting off leaves
    a policy different from the one the automatic registration stored. -/
theorem C1_auto_then_explicit_overwrites :
    (RegCall.run (RegCall.explicit false false false false false)
        (RegCall.run RegCall.auto PathMap.empty "/a") "/a") "/a"
      ≠ (RegCall.run RegCall.auto PathMap.empty "/a") "/a" := by
  decide

/-- C1 (amended): for every store, path and two successive registration calls on
    the path, the policy stored after the second call equals the policy stored
    after the first exactly when the first call is explicit, or the second call
    is automatic, or the path was already registered explicitly before the
    first call. -/
theorem C1_first_registration_wins_iff (m : PathMap) (p : String) (c1 c2 : RegCall) :
    (c2.run (c1.run m p) p) p = (c1.run m p) p
      ↔ (c1.isAuto = false ∨ c2.isAuto = true ∨ alreadyRegistered m p = true) := by
  cases c1 <;> cases c2 <;> cases hm : m p with
  | none => simp [RegCall.run, RegCall.isAuto, PreRegisertPath, RegisertPath, alreadyRegistered,
      PathMap.set, hm, IsRegister]
  | some v =>
    cases hv : v.IsRegister <;>
    simp [RegCall.run, RegCall.isAuto, PreRegisertPath, RegisertPath, alreadyRegistered,
      PathMap.set, hm, hv, IsRegister]

/-- C2: if `ProcessRequestHeaders` returns an interruption during a run of the
    middleware, the run ends without a single call of `c.Next()`: the
    downstream handler is never invoked. -/
theorem C2_header_interruption_skips_handler (E : Engine) (m : PathMap) (req : Request)
    (handler : List HandlerOp) (w : GinWriter) (it : Interruption)
    (h : TxEvent.ProcessRequestHeaders (some it) ∈ (GinCoraza E m req handler w).tx) :
    (GinCoraza E m req handler w).nextCalls = 0 := by
  obtain ⟨ext, htx, -, -, hnext, -⟩ :=
    GinCoraza_run E m req handler w (Or.inr (List.ne_nil_of_mem h))
  rw [htx] at h
  have hmem := mem_before_deferred (by simp [TxEvent.stage]) h
  exact hnext ⟨_, hmem, by simp [TxEvent.stage], by simp [TxEvent.abortCode]⟩

/-- C2 (witness): with an engine that interrupts at the request headers, the
    sample request gets the interruption and the handler is not run. -/
theorem C2_header_interruption_skips_handler_witness :
    TxEvent.ProcessRequestHeaders (some Interruption.tooMany) ∈
        (GinCoraza Engine.blockHeaders PathMap.empty Request.sample
          [HandlerOp.Write "hello"] GinWriter.fresh).tx ∧
      (GinCoraza Engine.blockHeaders PathMap.empty Request.sample
          [HandlerOp.Write "hello"] GinWriter.fresh).nextCalls = 0 :=
  ⟨by decide,
   C2_header_interruption_skips_handler Engine.blockHeaders PathMap.empty Request.sample
     [HandlerOp.Write "hello"] GinWriter.fresh Interruption.tooMany (by decide)⟩

/-- C3: whenever a run of the middleware creates a transaction, the calls made
    on it are some calls, none of them `ProcessLogging` or `Close`, followed by
    `ProcessLogging` and then `Close`: each is made exactly once, in this
    order, as the last two calls, whichever way the run ends. -/
theorem C3_logging_then_close_exactly_once (E : Engine) (m : PathMap) (req : Request)
    (handler : List HandlerOp) (w : GinWriter)
    (h : (GinCoraza E m req handler w).txCreated = true) :
    ∃ pre : Tx,
      (GinCoraza E m req handler w).tx = pre ++ [TxEvent.ProcessLogging, TxEvent.Close] ∧
      TxEvent.ProcessLogging ∉ pre ∧ TxEvent.Close ∉ pre := by
  obtain ⟨ext, htx, hst, -⟩ := GinCoraza_run E m req handler w (Or.inl h)
  refine ⟨ext, htx, ?_, ?_⟩
  · intro hmem
    have := hst _ hmem
    simp [TxEvent.stage] at this
  · intro hmem
    have := hst _ hmem
    simp [TxEvent.stage] at this

/-- C3 (witness): the sample request on a fresh store creates a transaction,
    and its calls end with `ProcessLogging`, `Close`. -/
theorem C3_logging_then_close_exactly_once_witness :
    (GinCoraza Engine.quiet PathMap.empty Request.sample [HandlerOp.Write "hello"]
        GinWriter.fresh).txCreated = true ∧
      ∃ pre : Tx,
        (GinCoraza Engine.quiet PathMap.empty Request.sample [HandlerOp.Write "hello"]
          GinWriter.fresh).tx = pre ++ [TxEvent.ProcessLogging, TxEvent.Close] ∧
        TxEvent.ProcessLogging ∉ pre ∧ TxEvent.Close ∉ pre :=
  ⟨by decide,
   C3_logging_then_close_exactly_once Engine.quiet PathMap.empty Request.sample
     [HandlerOp.Write "hello"] GinWriter.fresh (by decide)⟩

/-- C4 (counterexample): the engine interrupts at the request headers with a
    verdict of status 429; the middleware aborts, and the status it aborts
    with is not the status of the verdict. -/
theorem C4_abort_status_is_not_the_verdict_status :
    TxEvent.ProcessRequestHeaders (some Interruption.tooMany) ∈
        (GinCoraza Engine.blockHeaders PathMap.empty Request.sample [] GinWriter.fresh).tx ∧
      (GinCoraza Engine.blockHeaders PathMap.empty Request.sample [] GinWriter.fresh).aborts
        ≠ [Interruption.tooMany.Status] := by
  decide

/-- C4 (amended): whenever the engine returns an interruption from
    `ProcessRequestHeaders`, from `ReadRequestBodyFrom` or from
    `ProcessRequestBody`, or reports the transaction interrupted after the
    handler (which is how an interruption raised during the response writes of
    the handler is detected), the middleware aborts the exchange once, with
    status 403, whatever the status code of the interruption. -/
theorem C4_interruption_aborts_with_403 (E : Engine) (m : PathMap) (req : Request)
    (handler : List HandlerOp) (w : GinWriter) (it : Interruption)
    (h : TxEvent.ProcessRequestHeaders (some it) ∈ (GinCoraza E m req handler w).tx ∨
         (∃ n err, TxEvent.ReadRequestBodyFrom (some it) n err ∈
            (GinCoraza E m req handler w).tx) ∨
         (∃ err, TxEvent.ProcessRequestBody (some it) err ∈ (GinCoraza E m req handler w).tx) ∨
         TxEvent.IsInterrupted true ∈ (GinCoraza E m req handler w).tx) :
    (GinCoraza E m req handler w).aborts = [403] := by
  have hne : (GinCoraza E m req handler w).tx ≠ [] := by
    rcases h with h | ⟨_, _, h⟩ | ⟨_, h⟩ | h <;> exact List.ne_nil_of_mem h
  obtain ⟨ext, htx, -, hab, -⟩ := GinCoraza_run E m req handler w (Or.inr hne)
  rw [htx] at h
  rcases h with h | ⟨n, err, h⟩ | ⟨err, h⟩ | h
  · exact hab _ (mem_before_deferred (by simp [TxEvent.stage]) h) 403 (by simp [TxEvent.abortCode])
  · exact hab _ (mem_before_deferred (by simp [TxEvent.stage]) h) 403 (by simp [TxEvent.abortCode])
  · exact hab _ (mem_before_deferred (by simp [TxEvent.stage]) h) 403 (by simp [TxEvent.abortCode])
  · exact hab _ (mem_before_deferred (by simp [TxEvent.stage]) h) 403 (by simp [TxEvent.abortCode])

/-- C4 (witness): the engine interrupts the first response write of the handler
    with a verdict of status 429; the transaction is found interrupted after
    the handler and the middleware aborts with 403. -/
theorem C4_interruption_aborts_with_403_witness :
    (TxEvent.ProcessRequestHeaders (some Interruption.tooMany) ∈
        (GinCoraza Engine.blockWrites PathMap.empty Request.sample
          [HandlerOp.WriteString "hello"] GinWriter.fresh).tx ∨
      (∃ n err, TxEvent.ReadRequestBodyFrom (some Interruption.tooMany) n err ∈
        (GinCoraza Engine.blockWrites PathMap.empty Request.sample
          [HandlerOp.WriteString "hello"] GinWriter.fresh).tx) ∨
      (∃ err, TxEvent.ProcessRequestBody (some Interruption.tooMany) err ∈
        (GinCoraza Engine.blockWrites PathMap.empty Request.sample
          [HandlerOp.WriteString "hello"] GinWriter.fresh).tx) ∨
      TxEvent.IsInterrupted true ∈
        (GinCoraza Engine.blockWrites PathMap.empty Request.sample
          [HandlerOp.WriteString "hello"] GinWriter.fresh).tx) ∧
    (GinCoraza Engine.blockWrites PathMap.empty Request.sample
      [HandlerOp.WriteString "hello"] GinWriter.fresh).aborts = [403] :=
  ⟨Or.inr (Or.inr (Or.inr (by decide))),
   C4_interruption_aborts_with_403 Engine.blockWrites PathMap.empty Request.sample
     [HandlerOp.WriteString "hello"] GinWriter.fresh Interruption.tooMany
     (Or.inr (Or.inr (Or.inr (by decide))))⟩

/-- C5 (evaluation of the code): on a decorator with response-body inspection
    on, one `Write` of three bytes is accepted with count 3, and `Size()`
    reports 0 afterwards; the same bytes through `WriteString` give 3. -/
theorem C5_Size_ignores_Write :
    (runOnInterceptor Engine.quiet [HandlerOp.Write "abc"] (newResponseWriter true true)
        Heap.fresh).1 = [3] ∧
      (runOnInterceptor Engine.quiet [HandlerOp.Write "abc"] (newResponseWriter true true)
        Heap.fresh).2.1.Size = 0 ∧
      (runOnInterceptor Engine.quiet [HandlerOp.WriteString "abc"] (newResponseWriter true true)
        Heap.fresh).2.1.Size = 3 := by
  decide

/-- C6 (evaluation of the code): on a decorator with response-header
    inspection on and an engine that never interrupts, two `Write` calls make
    two `ProcessResponseHeaders` calls on the transaction; two `WriteString`
    calls make one. -/
theorem C6_Write_repeats_ProcessResponseHeaders :
    ((runOnInterceptor Engine.quiet [HandlerOp.Write "a", HandlerOp.Write "b"]
        (newResponseWriter true true) Heap.fresh).2.2.tx.countP
      TxEvent.isProcessResponseHeaders) = 2 ∧
    ((runOnInterceptor Engine.quiet [HandlerOp.WriteString "a", HandlerOp.WriteString "b"]
        (newResponseWriter true true) Heap.fresh).2.2.tx.countP
      TxEvent.isProcessResponseHeaders) = 1 := by
  decide

/-- C7 (evaluation of the code): on a fresh store, `RegisertPath` with the
    two response checks off stores a policy whose two response checks are on. -/
theorem C7_RegisertPath_drops_response_flags :
    (RegisertPath PathMap.empty "/a" true true true false false) "/a"
      = some { IsEnable := true, CheckReqHeader := true, CheckReqBody := true,
               CheckRespHeader := true, CheckRespBody := true, IsRegister := true } := by
  decide

/-- The statuses of the two engine failures of the response-body phase, for
    every engine, store, request and handler: an error returned by
    `ProcessResponseBody` ends in `AbortWithStatus(500)`, an error returned by
    `ResponseBodyReader` ends in `AbortWithStatus(403)`. -/
theorem response_body_failure_statuses (E : Engine) (m : PathMap) (req : Request)
    (handler : List HandlerOp) (w : GinWriter) (err : String) :
    (∀ it, TxEvent.ProcessResponseBody it (some err) ∈ (GinCoraza E m req handler w).tx →
        (GinCoraza E m req handler w).aborts = [500]) ∧
    (∀ reader, TxEvent.ResponseBodyReader reader (some err) ∈ (GinCoraza E m req handler w).tx →
        (GinCoraza E m req handler w).aborts = [403]) := by
  constructor
  · intro it h
    obtain ⟨ext, htx, -, hab, -⟩ :=
      GinCoraza_run E m req handler w (Or.inr (List.ne_nil_of_mem h))
    rw [htx] at h
    exact hab _ (mem_before_deferred (by simp [TxEvent.stage]) h) 500 (by simp [TxEvent.abortCode])
  · intro reader h
    obtain ⟨ext, htx, -, hab, -⟩ :=
      GinCoraza_run E m req handler w (Or.inr (List.ne_nil_of_mem h))
    rw [htx] at h
    exact hab _ (mem_before_deferred (by simp [TxEvent.stage]) h) 403 (by simp [TxEvent.abortCode])

/-- Both failures of the response-body phase occur: an engine whose
    `ProcessResponseBody` fails is aborted with 500, an engine whose reader
    fails is aborted with 403. -/
theorem response_body_failure_statuses_witness :
    (TxEvent.ProcessResponseBody none (some "engine failure") ∈
        (GinCoraza Engine.failBody PathMap.empty Request.sample
          [HandlerOp.WriteString "hello"] GinWriter.fresh).tx ∧
      (GinCoraza Engine.failBody PathMap.empty Request.sample
          [HandlerOp.WriteString "hello"] GinWriter.fresh).aborts = [500]) ∧
    (TxEvent.ResponseBodyReader "" (some "reader failure") ∈
        (GinCoraza Engine.failReader PathMap.empty Request.sample
          [HandlerOp.WriteString "hello"] GinWriter.fresh).tx ∧
      (GinCoraza Engine.failReader PathMap.empty Request.sample
          [HandlerOp.WriteString "hello"] GinWriter.fresh).aborts = [403]) :=
  ⟨⟨by decide,
    (response_body_failure_statuses Engine.failBody PathMap.empty Request.sample
      [HandlerOp.WriteString "hello"] GinWriter.fresh "engine failure").1 none (by decide)⟩,
   ⟨by decide,
    (response_body_failure_statuses Engine.failReader PathMap.empty Request.sample
      [HandlerOp.WriteString "hello"] GinWriter.fresh "reader failure").2 "" (by decide)⟩⟩

/-- C8 (evaluation of the code): the request reaches the response-body phase
    and the engine fails to hand out its response-body reader; the middleware
    aborts with status 403, not 500.  On the same request the other engine
    failure of the phase, an error of `ProcessResponseBody`, is aborted with
    status 500. -/
theorem C8_reader_failure_is_not_500 :
    TxEvent.ResponseBodyReader "" (some "reader failure") ∈
        (GinCoraza Engine.failReader PathMap.empty Request.sample
          [HandlerOp.WriteString "hello"] GinWriter.fresh).tx ∧
      (GinCoraza Engine.failReader PathMap.empty Request.sample
          [HandlerOp.WriteString "hello"] GinWriter.fresh).aborts = [403] ∧
      (GinCoraza Engine.failReader PathMap.empty Request.sample
          [HandlerOp.WriteString "hello"] GinWriter.fresh).aborts ≠ [500] ∧
      (GinCoraza Engine.failBody PathMap.empty Request.sample
          [HandlerOp.WriteString "hello"] GinWriter.fresh).aborts = [500] := by
  decide

/-- C9 (evaluation of the code): for the peer address `1.2.3.4`, which has no
    colon, the pair computed is the empty host and port 0, and that is what
    `ProcessConnection` receives. -/
theorem C9_no_colon_gives_empty_host :
    clientAddr "1.2.3.4" = ("", 0) ∧
      (GinCoraza Engine.quiet PathMap.empty
          { Request.sample with RemoteAddr := "1.2.3.4" } [] GinWriter.fresh).tx[1]?
        = some (TxEvent.ProcessConnection "" 0 "example.org" 443) := by
  decide

/-- C10 (counterexample): for the peer address `[2001:db8::1]:8080` the host
    passed to `ProcessConnection` keeps its square brackets. -/
theorem C10_brackets_are_kept :
    (GinCoraza Engine.quiet PathMap.empty
        { Request.sample with RemoteAddr := "[2001:db8::1]:8080" } [] GinWriter.fresh).tx[1]?
      = some (TxEvent.ProcessConnection "[2001:db8::1]" 8080 "example.org" 443) ∧
    (clientAddr "[2001:db8::1]:8080").1 ≠ "2001:db8::1" := by
  decide

/-- C10 (amended): when the peer address is `host`, a colon, and a `port` text
    with no colon in it (the split on the last colon), every `ProcessConnection`
    call of the run receives `host` unchanged as the client host, square
    brackets included, and the value `strconv.Atoi` gives for `port` as the
    client port. -/
theorem C10_split_on_last_colon (E : Engine) (m : PathMap) (req : Request)
    (handler : List HandlerOp) (w : GinWriter) (host port : String)
    (hsplit : req.RemoteAddr = host ++ ":" ++ port) (hport : ':' ∉ port.data)
    (client : String) (cport : Int) (server : String) (sport : Int)
    (h : TxEvent.ProcessConnection client cport server sport ∈
      (GinCoraza E m req handler w).tx) :
    client = host ∧ cport = (Atoi port).1 := by
  obtain ⟨ext, htx, -, -, -, hcon⟩ :=
    GinCoraza_run E m req handler w (Or.inr (List.ne_nil_of_mem h))
  rw [htx] at h
  have hmem := mem_before_deferred (by simp [TxEvent.stage]) h
  have heq := hcon _ hmem rfl
  rw [hsplit, clientAddr_split host port hport] at heq
  injection heq with h1 h2 h3 h4
  exact ⟨h1, h2⟩

/-- C10 (witness): `1.2.3.4:8080` gives host `1.2.3.4` and port 8080. -/
theorem C10_split_on_last_colon_witness :
    (Request.sample.RemoteAddr = "1.2.3.4" ++ ":" ++ "8080" ∧ ':' ∉ "8080".data ∧
      TxEvent.ProcessConnection "1.2.3.4" 8080 "example.org" 443 ∈
        (GinCoraza Engine.quiet PathMap.empty Request.sample [] GinWriter.fresh).tx) ∧
    ("1.2.3.4" = "1.2.3.4" ∧ (8080 : Int) = (Atoi "8080").1) :=
  ⟨⟨by decide, by decide, by decide⟩,
   C10_split_on_last_colon Engine.quiet PathMap.empty Request.sample [] GinWriter.fresh
     "1.2.3.4" "8080" (by decide) (by decide) "1.2.3.4" 8080 "example.org" 443 (by decide)⟩

end waf
